import Mathlib

/-!
# Arlo-Ai front end: the WebSocket session manager of `AppContext.js`

A shallow embedding of `src/frontend/src/context/AppContext.js` (the `AppProvider`
component): the React state, the four refs, the helpers `cleanup` and `connect`, and the
four socket handlers `onopen`, `onclose`, `onerror`, `onmessage`.

Modelling conventions.

* JavaScript strings are Lean strings.  Every string operation the source performs
  (`===`, `trim`, `includes` with an ASCII needle) is insensitive to the difference between
  UTF-16 code units and Unicode scalar values.
* `JSON.parse` is a built-in of the platform, not code of the repository: it is a parameter
  `JSONparse : String → Option JsVal` of the message handler (`none` = it threw).
* `new WebSocket(url)` may throw; whether it does is a parameter of `connect`.
* The browser side effects (`setTimeout`, `clearTimeout`, `new WebSocket`, `ws.close()`)
  are recorded, in order, in the field `effects` of the session.
* `console.log` / `console.error` have no effect on the session and are omitted.
-/

namespace Arlo

/-! ## JavaScript values -/

/-- A JavaScript value as `JSON.parse` and property reads can produce it. -/
inductive JsVal where
  | undefined
  | null
  | bool (b : Bool)
  | num (q : ℚ)
  | str (s : String)
  | arr (xs : List JsVal)
  | obj (props : List (String × JsVal))

/-- The exceptions that the handlers can meet. -/
inductive JsError where
  | parseFailure
  | typeError
deriving DecidableEq, Repr

/-- ToBoolean. -/
def truthy : JsVal → Bool
  | .undefined => false
  | .null => false
  | .bool b => b
  | .num q => decide (q ≠ 0)
  | .str s => decide (s ≠ "")
  | .arr _ => true
  | .obj _ => true

/-- Own-property lookup in an object literal. -/
def lookup (key : String) : List (String × JsVal) → JsVal
  | [] => .undefined
  | (k, v) :: rest => if k = key then v else lookup key rest

/-- The read `v.key` for the property names the handler reads (`type`, `text`, `message`),
none of which a built-in prototype defines: it throws a TypeError on `undefined` and
`null`, gives the own property of an object, and `undefined` on every other value. -/
def getProp (v : JsVal) (key : String) : Except JsError JsVal :=
  match v with
  | .undefined => .error .typeError
  | .null => .error .typeError
  | .obj props => .ok (lookup key props)
  | _ => .ok .undefined

/-- The comparison `v === "literal"`. -/
def strictEqStr (v : JsVal) (lit : String) : Bool :=
  match v with
  | .str s => decide (s = lit)
  | _ => false

/-- WhiteSpace and LineTerminator code points, the ones `String.prototype.trim` strips. -/
def isWhiteSpace (c : Char) : Bool :=
  decide (c.toNat ∈ [0x09, 0x0A, 0x0B, 0x0C, 0x0D, 0x20, 0xA0, 0x1680, 0x2028, 0x2029,
    0x202F, 0x205F, 0x3000, 0xFEFF]) || (decide (0x2000 ≤ c.toNat) && decide (c.toNat ≤ 0x200A))

/-- The method `String.prototype.trim`. -/
def trim (s : String) : String :=
  ⟨((s.data.dropWhile isWhiteSpace).reverse.dropWhile isWhiteSpace).reverse⟩

/-- The method `String.prototype.includes`. -/
def includes (s needle : String) : Bool :=
  decide (needle.data <:+: s.data)

/-- The condition `v && v.trim()`: `some t` when it is truthy (then `v` is the string `t`),
`none` when it is falsy; a truthy value that is not a string has no `trim` method, and
calling it throws a TypeError. -/
def textGuard (v : JsVal) : Except JsError (Option String) :=
  if truthy v then
    match v with
    | .str t => if trim t ≠ "" then .ok (some t) else .ok none
    | _ => .error .typeError
  else .ok none

/-- The call `v.includes(needle)`: `String.prototype.includes` on a string,
`Array.prototype.includes` on an array, a TypeError on every other value. -/
def callIncludes (v : JsVal) (needle : String) : Except JsError Bool :=
  match v with
  | .str s => .ok (includes s needle)
  | .arr xs => .ok (xs.any fun x => strictEqStr x needle)
  | _ => .error .typeError

/-! ## The session -/

def MAX_RETRIES : Nat := 5

def RETRY_DELAY : Nat := 3000

/-- One transcript entry. -/
structure Message where
  text : String
  isUser : Bool
deriving DecidableEq, Repr

/-- The calls into the browser that the session manager makes. -/
inductive Effect where
  | clearTimeout (id : Nat)
  | setTimeout (id : Nat) (delay : Nat)
  | newWebSocket (ws : Nat)
  | wsClose (ws : Nat)
deriving DecidableEq, Repr

/-- The React state of `AppProvider` (the Connection State), its four refs, and the
browser: the last timer id and socket id handed out and the effects performed so far.
Timer ids are positive, as `setTimeout` returns them. -/
structure Session where
  messages : List Message
  isListening : Bool
  isConnected : Bool
  connectionError : JsVal
  wakeWordActive : Bool
  socketRef : Option Nat
  retryCountRef : Nat
  reconnectTimeoutRef : Option Nat
  mountedRef : Bool
  timerSeq : Nat
  socketSeq : Nat
  effects : List Effect

/-- The state of a freshly rendered `AppProvider`: the `useState` and `useRef` defaults. -/
def initialSession : Session :=
  { messages := [], isListening := false, isConnected := false, connectionError := .null,
    wakeWordActive := false, socketRef := none, retryCountRef := 0,
    reconnectTimeoutRef := none, mountedRef := true, timerSeq := 0, socketSeq := 0,
    effects := [] }

/-- The fields of a close event that the handler reads. -/
structure CloseEvent where
  code : Nat
  reason : Option String
deriving DecidableEq, Repr

/-- The field of a message event that the handler reads. -/
structure MessageEvent where
  data : String
deriving DecidableEq, Repr

/-- The call `setTimeout(connect, RETRY_DELAY)` with its result stored in
`reconnectTimeoutRef.current`. -/
def scheduleRetry (s : Session) : Session :=
  { s with
    timerSeq := s.timerSeq + 1
    reconnectTimeoutRef := some (s.timerSeq + 1)
    effects := s.effects ++ [.setTimeout (s.timerSeq + 1) RETRY_DELAY] }

def cleanup (s : Session) : Session :=
  let s1 : Session :=
    match s.reconnectTimeoutRef with
    | some id =>
      if id ≠ 0 then
        { s with effects := s.effects ++ [.clearTimeout id], reconnectTimeoutRef := none }
      else s
    | none => s
  let s2 : Session :=
    match s1.socketRef with
    | some ws => { s1 with effects := s1.effects ++ [.wsClose ws], socketRef := none }
    | none => s1
  { s2 with retryCountRef := 0 }

/-- The function `connect`; `ctorThrows` says whether `new WebSocket(WEBSOCKET_URL)` throws. -/
def connect (ctorThrows : Bool) (s : Session) : Session :=
  if !s.mountedRef then s
  else
    let s1 := cleanup s
    if ctorThrows then
      if !s1.mountedRef then s1
      else
        let s2 : Session := { s1 with
          connectionError := JsVal.str
            "Failed to create WebSocket connection. Please check if the server is running." }
        if decide (s2.retryCountRef < MAX_RETRIES) && s2.mountedRef then
          scheduleRetry { s2 with retryCountRef := s2.retryCountRef + 1 }
        else s2
    else
      { s1 with
        socketSeq := s1.socketSeq + 1
        effects := s1.effects ++ [.newWebSocket (s1.socketSeq + 1)]
        socketRef := some (s1.socketSeq + 1) }

/-- The handler `ws.onopen` of the socket `ws`. -/
def onopen (ws : Nat) (s : Session) : Session :=
  if !s.mountedRef then { s with effects := s.effects ++ [.wsClose ws] }
  else
    { s with
      isConnected := true
      retryCountRef := 0
      connectionError := .null
      wakeWordActive := true }

/-- The value of `event.reason || "No reason provided"`. -/
def reasonText (reason : Option String) : String :=
  match reason with
  | some r => if r ≠ "" then r else "No reason provided"
  | none => "No reason provided"

/-- The handler `ws.onclose`. -/
def onclose (event : CloseEvent) (s : Session) : Session :=
  if !s.mountedRef then s
  else
    let s1 : Session := { s with
      isConnected := false
      connectionError := JsVal.str
        ("Disconnected: " ++ toString event.code ++ " " ++ reasonText event.reason) }
    if decide (s1.retryCountRef < MAX_RETRIES) && s1.mountedRef then
      scheduleRetry { s1 with retryCountRef := s1.retryCountRef + 1 }
    else
      { s1 with
        connectionError := JsVal.str
          "Max reconnection attempts reached. Please refresh the page."
        isListening := false
        wakeWordActive := false }

/-- The handler `ws.onerror`. -/
def onerror (s : Session) : Session :=
  if !s.mountedRef then s
  else
    { s with
      isConnected := false
      connectionError := JsVal.str
        "Connection error occurred. Please check if the server is running." }

/-- The condition `prev.length > 0 && prev[prev.length - 1].text === text &&
prev[prev.length - 1].isUser` (with `!prev[prev.length - 1].isUser` for `isUser = false`). -/
def lastIs (prev : List Message) (text : String) (isUser : Bool) : Bool :=
  decide (prev.length > 0) &&
    match prev[prev.length - 1]? with
    | some last => decide (last.text = text) && (last.isUser == isUser)
    | none => false

/-- The updaters passed to `setMessages` in the `transcription` (`isUser = true`) and
`assistant_response` (`isUser = false`) cases. -/
def appendMessage (text : String) (isUser : Bool) (prev : List Message) : List Message :=
  if lastIs prev text isUser then prev
  else prev ++ [{ text := text, isUser := isUser }]

/-- The `transcription` and `assistant_response` cases of the switch. -/
def onText (data : JsVal) (isUser : Bool) (s : Session) : Except JsError Unit × Session :=
  match getProp data "text" with
  | .error e => (.error e, s)
  | .ok text =>
    match textGuard text with
    | .error e => (.error e, s)
    | .ok (some t) => (.ok (), { s with messages := appendMessage t isUser s.messages })
    | .ok none => (.ok (), s)

/-- The `status` case of the switch. -/
def onStatus (data : JsVal) (s : Session) : Except JsError Unit × Session :=
  match getProp data "message" with
  | .error e => (.error e, s)
  | .ok message =>
    if strictEqStr message "Started listening" then
      (.ok (), { s with isListening := true })
    else if strictEqStr message "Stopped listening" then
      (.ok (), { s with isListening := false })
    else
      match callIncludes message "Wake word detection started" with
      | .error e => (.error e, s)
      | .ok true => (.ok (), { s with wakeWordActive := true })
      | .ok false => (.ok (), s)

/-- The body of the `try` block of `ws.onmessage`: the completion (normal, or the exception
thrown) and the session at that point. -/
def onmessageTry (JSONparse : String → Option JsVal) (event : MessageEvent) (s : Session) :
    Except JsError Unit × Session :=
  match JSONparse event.data with
  | none => (.error .parseFailure, s)
  | some data =>
    match getProp data "type" with
    | .error e => (.error e, s)
    | .ok type =>
      if strictEqStr type "connection_established" then
        (.ok (), { s with isConnected := true, connectionError := .null })
      else if strictEqStr type "transcription" then
        onText data true s
      else if strictEqStr type "assistant_response" then
        onText data false s
      else if strictEqStr type "status" then
        onStatus data s
      else if strictEqStr type "error" then
        match getProp data "message" with
        | .error e => (.error e, s)
        | .ok message => (.ok (), { s with isListening := false, connectionError := message })
      else (.ok (), s)

/-- The handler `ws.onmessage`: the liveness guard, then `try { ... } catch { ... }`. -/
def onmessage (JSONparse : String → Option JsVal) (event : MessageEvent) (s : Session) :
    Except JsError Unit × Session :=
  if !s.mountedRef then (.ok (), s)
  else
    match onmessageTry JSONparse event s with
    | (.ok _, s1) => (.ok (), s1)
    | (.error _, s1) =>
      (.ok (), { s1 with connectionError := JsVal.str "Error parsing server message" })

/-- The mount effect: `mountedRef.current = true; connect()`. -/
def mount (ctorThrows : Bool) (s : Session) : Session :=
  connect ctorThrows { s with mountedRef := true }

/-- The teardown returned by the mount effect: `mountedRef.current = false; cleanup()`. -/
def teardown (s : Session) : Session :=
  cleanup { s with mountedRef := false }

/-- The message handler applied to a sequence of inbound frames. -/
def onmessages (JSONparse : String → Option JsVal) (events : List MessageEvent)
    (s : Session) : Session :=
  events.foldl (fun acc event => (onmessage JSONparse event acc).2) s

/-- An inbound frame that parses to a value whose `type` is the string `type` and whose
property `field` has the value `v`. -/
def Carries (JSONparse : String → Option JsVal) (event : MessageEvent) (type field : String)
    (v : JsVal) : Prop :=
  ∃ data, JSONparse event.data = some data ∧ getProp data "type" = .ok (.str type) ∧
    getProp data field = .ok v

/-- The `type` of the frame that carries a user utterance (`isUser = true`) or an assistant
response (`isUser = false`). -/
def textEventType (isUser : Bool) : String :=
  if isUser then "transcription" else "assistant_response"

/-- A fragment of `JSON.parse`: its value on six well-formed frames, its failure on every
other payload. -/
def sampleParse (raw : String) : Option JsVal :=
  if raw = "\x7b\"type\":\"transcription\",\"text\":\"hi\"\x7d" then
    some (.obj [("type", .str "transcription"), ("text", .str "hi")])
  else if raw = "\x7b\"type\":\"assistant_response\",\"text\":\"hi\"\x7d" then
    some (.obj [("type", .str "assistant_response"), ("text", .str "hi")])
  else if raw = "\x7b\"type\":\"transcription\",\"text\":\"   \"\x7d" then
    some (.obj [("type", .str "transcription"), ("text", .str "   ")])
  else if raw = "\x7b\"type\":\"status\",\"message\":\"Started listening\"\x7d" then
    some (.obj [("type", .str "status"), ("message", .str "Started listening")])
  else if raw = "\x7b\"type\":\"status\",\"message\":\"Wake word detection started!\"\x7d" then
    some (.obj [("type", .str "status"), ("message", .str "Wake word detection started!")])
  else if raw = "null" then some .null
  else none

/-- The frame of a user utterance with text `hi`. -/
def hiFrame : MessageEvent :=
  ⟨"\x7b\"type\":\"transcription\",\"text\":\"hi\"\x7d"⟩

/-- The frame of a user utterance with a text of three blanks. -/
def blankFrame : MessageEvent :=
  ⟨"\x7b\"type\":\"transcription\",\"text\":\"   \"\x7d"⟩

/-- The frame of the status `Wake word detection started!`. -/
def wakeFrame : MessageEvent :=
  ⟨"\x7b\"type\":\"status\",\"message\":\"Wake word detection started!\"\x7d"⟩

/-- A session right after the mount effect: mounted, with its first socket created. -/
def mountedSession : Session := mount false initialSession

/-- The transcript invariant: every text is non-empty after trimming and no two adjacent
entries agree in both text and author. -/
def WellFormed (T : List Message) : Prop :=
  (∀ m ∈ T, trim m.text ≠ "") ∧
    List.Chain' (fun a b : Message => ¬ (a.text = b.text ∧ a.isUser = b.isUser)) T

/-- Whether the step from `before` to `after` scheduled exactly one retry: the only effect
added is one `setTimeout(connect, RETRY_DELAY)`. -/
def retryScheduled (before after : Session) : Bool :=
  decide (after.effects = before.effects ++ [.setTimeout (before.timerSeq + 1) RETRY_DELAY])

/-- A close event followed, when it scheduled a retry, by the retry timer firing and running
`connect()`, which creates the next socket. -/
def closeThenRetry (event : CloseEvent) (s : Session) : Session :=
  if retryScheduled s (onclose event s) then connect false (onclose event s)
  else onclose event s

/-- Rounds of `closeThenRetry`, one for each close event, in order. -/
def closeRounds (events : List CloseEvent) (s : Session) : Session :=
  events.foldl (fun acc event => closeThenRetry event acc) s

/-- Consecutive close events with nothing in between. -/
def closes (events : List CloseEvent) (s : Session) : Session :=
  events.foldl (fun acc event => onclose event acc) s

/-- The close event of an abnormal closure, with no reason. -/
def abnormalClose : CloseEvent := ⟨1006, some ""⟩

/-! ## Lemmas on the string helpers -/

theorem trim_empty : trim "" = "" := by decide

theorem trim_of_all_whiteSpace (t : String) (h : ∀ c ∈ t.data, isWhiteSpace c = true) :
    trim t = "" := by
  have h1 : t.data.dropWhile isWhiteSpace = [] := List.dropWhile_eq_nil_iff.2 h
  simp only [trim, h1]
  rfl

theorem ne_empty_of_trim_ne_empty (t : String) (h : trim t ≠ "") : t ≠ "" := by
  intro h0
  exact h (h0 ▸ trim_empty)

theorem textGuard_str (t : String) (h : trim t ≠ "") : textGuard (.str t) = .ok (some t) := by
  have h0 := ne_empty_of_trim_ne_empty t h
  simp [textGuard, truthy, h0, h]

theorem textGuard_str_none (t : String) (h : trim t = "") : textGuard (.str t) = .ok none := by
  simp [textGuard, h]

theorem textGuard_undefined : textGuard .undefined = .ok none := by
  simp [textGuard, truthy]

theorem textGuard_some (v : JsVal) (t : String) (h : textGuard v = .ok (some t)) :
    v = .str t ∧ trim t ≠ "" := by
  unfold textGuard at h
  split at h
  · split at h
    · split at h
      · simp only [Except.ok.injEq, Option.some.injEq] at h
        subst h
        exact ⟨rfl, by assumption⟩
      · simp at h
    · simp at h
  · simp at h

/-! ## Lemmas on the transcript updater -/

theorem lastIs_iff (prev : List Message) (t : String) (u : Bool) :
    lastIs prev t u = true ↔ prev.getLast? = some ⟨t, u⟩ := by
  unfold lastIs
  rw [← List.getLast?_eq_getElem?]
  cases hl : prev.getLast? with
  | none => simp
  | some m =>
    have hne : prev ≠ [] := by
      intro h0
      simp [h0] at hl
    have hpos : 0 < prev.length := List.length_pos.2 hne
    cases m with
    | mk mt mu => simp [hpos]

theorem appendMessage_of_last (prev : List Message) (t : String) (u : Bool)
    (h : prev.getLast? = some ⟨t, u⟩) : appendMessage t u prev = prev := by
  simp [appendMessage, (lastIs_iff prev t u).2 h]

theorem appendMessage_of_not_last (prev : List Message) (t : String) (u : Bool)
    (h : prev.getLast? ≠ some ⟨t, u⟩) : appendMessage t u prev = prev ++ [⟨t, u⟩] := by
  have h1 : ¬ lastIs prev t u = true := fun hc => h ((lastIs_iff prev t u).1 hc)
  simp [appendMessage, h1]

theorem appendMessage_eq (prev : List Message) (t : String) (u : Bool) :
    appendMessage t u prev
      = if prev.getLast? = some ⟨t, u⟩ then prev else prev ++ [⟨t, u⟩] := by
  by_cases h : prev.getLast? = some ⟨t, u⟩
  · rw [if_pos h, appendMessage_of_last prev t u h]
  · rw [if_neg h, appendMessage_of_not_last prev t u h]

theorem appendMessage_idem (prev : List Message) (t : String) (u : Bool) :
    appendMessage t u (appendMessage t u prev) = appendMessage t u prev := by
  by_cases h : prev.getLast? = some ⟨t, u⟩
  · rw [appendMessage_of_last prev t u h, appendMessage_of_last prev t u h]
  · rw [appendMessage_of_not_last prev t u h]
    exact appendMessage_of_last _ t u (List.getLast?_concat prev)

/-! ## Lemmas on the message handler -/

/-- What the message handler can do to the transcript: nothing, or one run of the updater
with a text that is not empty after trimming. -/
theorem onmessage_messages (JSONparse : String → Option JsVal) (event : MessageEvent)
    (s : Session) :
    (onmessage JSONparse event s).2.messages = s.messages ∨
      ∃ t u, trim t ≠ "" ∧
        (onmessage JSONparse event s).2.messages = appendMessage t u s.messages := by
  have hText : ∀ (data : JsVal) (u : Bool),
      (onText data u s).2.messages = s.messages ∨
        ∃ t v, trim t ≠ "" ∧ (onText data u s).2.messages = appendMessage t v s.messages := by
    intro data u
    unfold onText
    split
    · exact Or.inl rfl
    · split
      · exact Or.inl rfl
      · rename_i text _ t hg
        exact Or.inr ⟨t, u, (textGuard_some _ t hg).2, rfl⟩
      · exact Or.inl rfl
  have hStatus : ∀ data : JsVal, (onStatus data s).2.messages = s.messages := by
    intro data
    unfold onStatus
    repeat (first | rfl | split)
  have hTry : (onmessageTry JSONparse event s).2.messages = s.messages ∨
      ∃ t u, trim t ≠ "" ∧
        (onmessageTry JSONparse event s).2.messages = appendMessage t u s.messages := by
    unfold onmessageTry
    split
    · exact Or.inl rfl
    · split
      · exact Or.inl rfl
      · split_ifs
        · exact Or.inl rfl
        · exact hText _ _
        · exact hText _ _
        · exact Or.inl (hStatus _)
        · split
          · exact Or.inl rfl
          · exact Or.inl rfl
        · exact Or.inl rfl
  unfold onmessage
  split_ifs
  · exact Or.inl rfl
  · split
    · rename_i h
      rw [h] at hTry
      exact hTry
    · rename_i h
      rw [h] at hTry
      exact hTry

theorem onmessages_nil (JSONparse : String → Option JsVal) (s : Session) :
    onmessages JSONparse [] s = s := rfl

theorem onmessages_cons (JSONparse : String → Option JsVal) (event : MessageEvent)
    (events : List MessageEvent) (s : Session) :
    onmessages JSONparse (event :: events) s
      = onmessages JSONparse events (onmessage JSONparse event s).2 := rfl

theorem onmessages_append (JSONparse : String → Option JsVal)
    (events more : List MessageEvent) (s : Session) :
    onmessages JSONparse (events ++ more) s
      = onmessages JSONparse more (onmessages JSONparse events s) := by
  simp [onmessages]

theorem appendMessage_extends (prev : List Message) (t : String) (u : Bool) :
    appendMessage t u prev = prev ∨ appendMessage t u prev = prev ++ [⟨t, u⟩] := by
  by_cases h : prev.getLast? = some ⟨t, u⟩
  · exact Or.inl (appendMessage_of_last prev t u h)
  · exact Or.inr (appendMessage_of_not_last prev t u h)

theorem onmessage_extends (JSONparse : String → Option JsVal) (event : MessageEvent)
    (s : Session) :
    (onmessage JSONparse event s).2.messages = s.messages ∨
      ∃ m, (onmessage JSONparse event s).2.messages = s.messages ++ [m] := by
  rcases onmessage_messages JSONparse event s with h | ⟨t, u, _, h⟩
  · exact Or.inl h
  · rcases appendMessage_extends s.messages t u with h1 | h1
    · exact Or.inl (h.trans h1)
    · exact Or.inr ⟨⟨t, u⟩, h.trans h1⟩

theorem onmessages_extends (JSONparse : String → Option JsVal) (events : List MessageEvent) :
    ∀ s : Session, ∃ added, (onmessages JSONparse events s).messages = s.messages ++ added := by
  induction events with
  | nil => exact fun s => ⟨[], by simp [onmessages_nil]⟩
  | cons event events ih =>
    intro s
    obtain ⟨added, h⟩ := ih (onmessage JSONparse event s).2
    rw [onmessages_cons, h]
    rcases onmessage_extends JSONparse event s with h1 | ⟨m, h1⟩
    · exact ⟨added, by rw [h1]⟩
    · exact ⟨m :: added, by rw [h1]; simp⟩

theorem wellFormed_appendMessage (prev : List Message) (t : String) (u : Bool)
    (hw : WellFormed prev) (ht : trim t ≠ "") : WellFormed (appendMessage t u prev) := by
  by_cases h : prev.getLast? = some ⟨t, u⟩
  · rw [appendMessage_of_last prev t u h]
    exact hw
  · rw [appendMessage_of_not_last prev t u h]
    refine ⟨?_, ?_⟩
    · intro m hm
      rcases List.mem_append.1 hm with hm | hm
      · exact hw.1 m hm
      · rw [List.mem_singleton.1 hm]
        exact ht
    · refine List.Chain'.append hw.2 (List.chain'_singleton _) ?_
      intro x hx y hy hxy
      have hy2 : y = ⟨t, u⟩ := by
        simp at hy
        exact hy.symm
      subst hy2
      apply h
      have hx2 : prev.getLast? = some x := hx
      rw [hx2]
      cases x with
      | mk xt xu =>
        simp only [Option.some.injEq, Message.mk.injEq]
        exact hxy

theorem wellFormed_onmessage (JSONparse : String → Option JsVal) (event : MessageEvent)
    (s : Session) (hw : WellFormed s.messages) :
    WellFormed (onmessage JSONparse event s).2.messages := by
  rcases onmessage_messages JSONparse event s with h | ⟨t, u, ht, h⟩
  · rw [h]
    exact hw
  · rw [h]
    exact wellFormed_appendMessage s.messages t u hw ht

theorem wellFormed_onmessages (JSONparse : String → Option JsVal)
    (events : List MessageEvent) :
    ∀ s : Session, WellFormed s.messages → WellFormed (onmessages JSONparse events s).messages := by
  induction events with
  | nil => exact fun s hw => hw
  | cons event events ih =>
    intro s hw
    rw [onmessages_cons]
    exact ih _ (wellFormed_onmessage JSONparse event s hw)

/-- On a mounted session, a frame that carries the text `t` (non-empty after trimming) as a
user utterance or as an assistant response runs the updater once and changes nothing else. -/
theorem onmessage_text (JSONparse : String → Option JsVal) (event : MessageEvent)
    (s : Session) (t : String) (u : Bool) (hm : s.mountedRef = true) (ht : trim t ≠ "")
    (he : Carries JSONparse event (textEventType u) "text" (.str t)) :
    onmessage JSONparse event s
      = (.ok (), { s with messages := appendMessage t u s.messages }) := by
  obtain ⟨data, hp, hty, htx⟩ := he
  cases u with
  | true =>
    simp [onmessage, onmessageTry, hm, hp, hty, strictEqStr, textEventType, onText, htx,
      textGuard_str t ht]
  | false =>
    simp [onmessage, onmessageTry, hm, hp, hty, strictEqStr, textEventType, onText, htx,
      textGuard_str t ht]

theorem onmessages_text (JSONparse : String → Option JsVal) (t : String) (u : Bool)
    (ht : trim t ≠ "") (events : List MessageEvent) :
    ∀ s : Session, s.mountedRef = true →
      (∀ e ∈ events, Carries JSONparse e (textEventType u) "text" (.str t)) →
      (onmessages JSONparse events s).messages
        = if events = [] then s.messages else appendMessage t u s.messages := by
  induction events with
  | nil => exact fun s _ _ => rfl
  | cons event events ih =>
    intro s hm he
    have h1 := onmessage_text JSONparse event s t u hm ht (he event (List.mem_cons_self _ _))
    rw [onmessages_cons, h1]
    have h2 := ih { s with messages := appendMessage t u s.messages } hm
      (fun e hmem => he e (List.mem_cons_of_mem _ hmem))
    rw [h2]
    by_cases hnil : events = []
    · simp [hnil]
    · simp [hnil, appendMessage_idem]

/-! ## The transcript -/

/-- C3 (append-only transcript): whatever the inbound frame, the message handler leaves the
transcript as it is or appends exactly one entry to it; hence along every sequence of frames
the transcript reached earlier is a prefix of the transcript reached later, and its length
never decreases. -/
theorem transcript_append_only (JSONparse : String → Option JsVal) (s : Session) :
    (∀ event : MessageEvent,
      (onmessage JSONparse event s).2.messages = s.messages ∨
        ∃ m, (onmessage JSONparse event s).2.messages = s.messages ++ [m]) ∧
    (∀ events more : List MessageEvent,
      (onmessages JSONparse events s).messages
          <+: (onmessages JSONparse (events ++ more) s).messages ∧
        (onmessages JSONparse events s).messages.length
          ≤ (onmessages JSONparse (events ++ more) s).messages.length) := by
  refine ⟨fun event => onmessage_extends JSONparse event s, fun events more => ?_⟩
  obtain ⟨added, h⟩ := onmessages_extends JSONparse more (onmessages JSONparse events s)
  rw [onmessages_append, h]
  exact ⟨⟨added, rfl⟩, by simp⟩

/-- C10 (transcript well-formedness): starting from the empty transcript, after any sequence
of inbound frames every entry of the transcript has a text that is non-empty after trimming,
and no two adjacent entries have both the same text and the same `isUser` flag. -/
theorem transcript_well_formed (JSONparse : String → Option JsVal)
    (events : List MessageEvent) (s : Session) (h : s.messages = []) :
    (∀ m ∈ (onmessages JSONparse events s).messages, trim m.text ≠ "") ∧
      List.Chain' (fun a b : Message => ¬ (a.text = b.text ∧ a.isUser = b.isUser))
        (onmessages JSONparse events s).messages := by
  have hw : WellFormed s.messages := by
    rw [h]
    exact ⟨by simp, List.chain'_nil⟩
  exact wellFormed_onmessages JSONparse events s hw

/-- C2 (adjacent de-duplication): on a mounted session, `n ≥ 1` consecutive frames that carry
the same text `t` (non-empty after trimming), all as user utterances or all as assistant
responses, leave the transcript unchanged when its last entry already is that text by that
author, and append exactly one entry otherwise. -/
theorem adjacent_dedup (JSONparse : String → Option JsVal) (s : Session)
    (events : List MessageEvent) (t : String) (isUser : Bool)
    (hm : s.mountedRef = true) (ht : trim t ≠ "") (hn : 1 ≤ events.length)
    (he : ∀ e ∈ events, Carries JSONparse e (textEventType isUser) "text" (.str t)) :
    (onmessages JSONparse events s).messages
      = if s.messages.getLast? = some ⟨t, isUser⟩ then s.messages
        else s.messages ++ [⟨t, isUser⟩] := by
  have hne : events ≠ [] := by
    intro h0
    simp [h0] at hn
  rw [onmessages_text JSONparse t isUser ht events s hm he, if_neg hne, appendMessage_eq]

theorem carries_hiFrame : Carries sampleParse hiFrame (textEventType true) "text" (.str "hi") :=
  ⟨.obj [("type", .str "transcription"), ("text", .str "hi")], rfl, rfl, rfl⟩

/-- Witness of `transcript_well_formed`: two `hi` utterances from the fresh session. -/
theorem transcript_well_formed_witness :
    mountedSession.messages = [] ∧
      ((∀ m ∈ (onmessages sampleParse [hiFrame, hiFrame] mountedSession).messages,
          trim m.text ≠ "") ∧
        List.Chain' (fun a b : Message => ¬ (a.text = b.text ∧ a.isUser = b.isUser))
          (onmessages sampleParse [hiFrame, hiFrame] mountedSession).messages) :=
  ⟨rfl, transcript_well_formed sampleParse [hiFrame, hiFrame] mountedSession rfl⟩

/-- Witness of `adjacent_dedup`: from the empty transcript the run `hi`, `hi` gives the one
entry `hi` by the user; after an assistant entry `hi` the user utterance `hi` is appended. -/
theorem adjacent_dedup_witness :
    (onmessages sampleParse [hiFrame, hiFrame] mountedSession).messages = [⟨"hi", true⟩] ∧
      (onmessages sampleParse [hiFrame]
          { mountedSession with messages := [⟨"hi", false⟩] }).messages
        = [⟨"hi", false⟩, ⟨"hi", true⟩] := by
  have hall : ∀ e ∈ [hiFrame, hiFrame],
      Carries sampleParse e (textEventType true) "text" (.str "hi") := by
    intro e he
    simp only [List.mem_cons, List.mem_singleton, List.not_mem_nil, or_false, or_self] at he
    rw [he]
    exact carries_hiFrame
  have hone : ∀ e ∈ [hiFrame],
      Carries sampleParse e (textEventType true) "text" (.str "hi") := by
    intro e he
    rw [List.mem_singleton.1 he]
    exact carries_hiFrame
  refine ⟨?_, ?_⟩
  · rw [adjacent_dedup sampleParse mountedSession [hiFrame, hiFrame] "hi" true rfl
      (by decide) (by decide) hall]
    rfl
  · rw [adjacent_dedup sampleParse { mountedSession with messages := [⟨"hi", false⟩] }
      [hiFrame] "hi" true rfl (by decide) (by decide) hone]
    decide

/-! ## The message handler -/

/-- C5 (malformed payload fails soft): on a mounted session, a frame whose payload
`JSON.parse` rejects makes the message handler complete normally, with `connectionError` set
to the non-empty string `Error parsing server message` and every other field, among them
`transcript`, `isListening`, `wakeWordActive` and `isConnected`, unchanged. -/
theorem malformed_payload_fails_soft (JSONparse : String → Option JsVal)
    (event : MessageEvent) (s : Session) (hm : s.mountedRef = true)
    (hp : JSONparse event.data = none) :
    onmessage JSONparse event s
        = (.ok (), { s with connectionError := .str "Error parsing server message" }) ∧
      "Error parsing server message" ≠ "" := by
  refine ⟨?_, by decide⟩
  simp [onmessage, onmessageTry, hm, hp]

/-- Witness of `malformed_payload_fails_soft`: the payload `not json`. -/
theorem malformed_payload_fails_soft_witness :
    mountedSession.mountedRef = true ∧ sampleParse (MessageEvent.mk "not json").data = none ∧
      (onmessage sampleParse ⟨"not json"⟩ mountedSession
          = (.ok (), { mountedSession with
              connectionError := .str "Error parsing server message" }) ∧
        "Error parsing server message" ≠ "") :=
  ⟨rfl, rfl, malformed_payload_fails_soft sampleParse ⟨"not json"⟩ mountedSession rfl rfl⟩

/-- C6 (status mapping): on a mounted session, a `status` frame whose message is the string
`m` sets `isListening` to true when `m` is `Started listening`, to false when `m` is
`Stopped listening`, and leaves it otherwise; it sets `wakeWordActive` to true when `m` is
neither of those two and contains `Wake word detection started`, and leaves it otherwise;
the handler completes normally and every other field is unchanged. -/
theorem status_mapping (JSONparse : String → Option JsVal) (event : MessageEvent)
    (s : Session) (m : String) (hm : s.mountedRef = true)
    (he : Carries JSONparse event "status" "message" (.str m)) :
    onmessage JSONparse event s
      = (.ok (), { s with
          isListening :=
            if m = "Started listening" then true
            else if m = "Stopped listening" then false
            else s.isListening
          wakeWordActive :=
            if m ≠ "Started listening" ∧ m ≠ "Stopped listening" ∧
                "Wake word detection started".data <:+: m.data then true
            else s.wakeWordActive }) := by
  obtain ⟨data, hp, hty, hmsg⟩ := he
  by_cases h1 : m = "Started listening"
  · simp [onmessage, onmessageTry, onStatus, hm, hp, hty, hmsg, strictEqStr, h1]
  · by_cases h2 : m = "Stopped listening"
    · simp [onmessage, onmessageTry, onStatus, hm, hp, hty, hmsg, strictEqStr, h2]
    · by_cases h3 : "Wake word detection started".data <:+: m.data
      · simp [onmessage, onmessageTry, onStatus, hm, hp, hty, hmsg, strictEqStr, h1, h2,
          callIncludes, includes, h3]
      · cases s
        simp only at hm
        subst hm
        simp [onmessage, onmessageTry, onStatus, hp, hty, hmsg, strictEqStr, h1, h2,
          callIncludes, includes, h3]

/-- Witness of `status_mapping`: the status `Wake word detection started!`. -/
theorem status_mapping_witness :
    mountedSession.mountedRef = true ∧
      Carries sampleParse wakeFrame "status" "message" (.str "Wake word detection started!") ∧
      onmessage sampleParse wakeFrame mountedSession
        = (.ok (), { mountedSession with wakeWordActive := true }) := by
  have hc : Carries sampleParse wakeFrame "status" "message"
      (.str "Wake word detection started!") :=
    ⟨.obj [("type", .str "status"), ("message", .str "Wake word detection started!")],
      rfl, rfl, rfl⟩
  refine ⟨rfl, hc, ?_⟩
  rw [status_mapping sampleParse wakeFrame mountedSession "Wake word detection started!" rfl hc]
  rfl

/-- C7 (empty-text drop): on a mounted session, a `transcription` or `assistant_response`
frame whose text is missing, empty or made of whitespace only makes the handler complete
normally and leaves the whole session unchanged: the transcript, every other field of the
Connection State, `connectionError` included. -/
theorem empty_text_dropped (JSONparse : String → Option JsVal) (event : MessageEvent)
    (s : Session) (isUser : Bool) (v : JsVal) (hm : s.mountedRef = true)
    (he : Carries JSONparse event (textEventType isUser) "text" v)
    (hv : v = .undefined ∨ ∃ t, v = .str t ∧ ∀ c ∈ t.data, isWhiteSpace c = true) :
    onmessage JSONparse event s = (.ok (), s) := by
  obtain ⟨data, hp, hty, htx⟩ := he
  have hg : textGuard v = .ok none := by
    rcases hv with rfl | ⟨t, rfl, hws⟩
    · exact textGuard_undefined
    · exact textGuard_str_none t (trim_of_all_whiteSpace t hws)
  cases isUser with
  | true =>
    simp [onmessage, onmessageTry, hm, hp, hty, strictEqStr, textEventType, onText, htx, hg]
  | false =>
    simp [onmessage, onmessageTry, hm, hp, hty, strictEqStr, textEventType, onText, htx, hg]

/-- Witness of `empty_text_dropped`: a user utterance of three blanks. -/
theorem empty_text_dropped_witness :
    mountedSession.mountedRef = true ∧
      Carries sampleParse blankFrame (textEventType true) "text" (.str "   ") ∧
      onmessage sampleParse blankFrame mountedSession = (.ok (), mountedSession) := by
  have hc : Carries sampleParse blankFrame (textEventType true) "text" (.str "   ") :=
    ⟨.obj [("type", .str "transcription"), ("text", .str "   ")],
      rfl, rfl, rfl⟩
  exact ⟨rfl, hc, empty_text_dropped sampleParse blankFrame mountedSession true (.str "   ")
    rfl hc (Or.inr ⟨"   ", rfl, by decide⟩)⟩

/-! ## The liveness guard -/

theorem teardown_unmounted (s : Session) : (teardown s).mountedRef = false := by
  unfold teardown cleanup
  simp only
  repeat (first | rfl | split)

/-- C4 (post-teardown silence): once the liveness flag is false, the handlers `onclose`,
`onerror`, `onmessage` and the function `connect` leave the whole session unchanged: every
field of the Connection State, `retryCount`, and the effects, so no timer is scheduled; and
`onopen` changes nothing but to close its own socket. -/
theorem post_teardown_silence (JSONparse : String → Option JsVal) (s : Session)
    (hm : s.mountedRef = false) :
    (∀ ws : Nat, onopen ws s = { s with effects := s.effects ++ [.wsClose ws] }) ∧
      (∀ event : CloseEvent, onclose event s = s) ∧
      onerror s = s ∧
      (∀ event : MessageEvent, onmessage JSONparse event s = (.ok (), s)) ∧
      (∀ ctorThrows : Bool, connect ctorThrows s = s) := by
  refine ⟨fun ws => ?_, fun event => ?_, ?_, fun event => ?_, fun ctorThrows => ?_⟩
  · simp [onopen, hm]
  · simp [onclose, hm]
  · simp [onerror, hm]
  · simp [onmessage, hm]
  · simp [connect, hm]

/-- Witness of `post_teardown_silence`: the session after mount and teardown. -/
theorem post_teardown_silence_witness :
    (teardown mountedSession).mountedRef = false ∧
      onopen 1 (teardown mountedSession)
        = { teardown mountedSession with
            effects := (teardown mountedSession).effects ++ [.wsClose 1] } ∧
      onclose abnormalClose (teardown mountedSession) = teardown mountedSession ∧
      onmessage sampleParse hiFrame (teardown mountedSession)
        = (.ok (), teardown mountedSession) :=
  ⟨rfl,
    (post_teardown_silence sampleParse (teardown mountedSession) rfl).1 1,
    (post_teardown_silence sampleParse (teardown mountedSession) rfl).2.1 abnormalClose,
    (post_teardown_silence sampleParse (teardown mountedSession) rfl).2.2.2.1 hiFrame⟩

/-! ## The close handler and the retry count -/

/-- C9 (close handler step contract): on a mounted session a close event sets `isConnected`
to false and keeps the transcript; when `retryCount < 5` it adds one to `retryCount`,
schedules exactly one timer with delay 3000, keeps `isListening` and `wakeWordActive`, and
sets `connectionError` to `Disconnected: <code> <reason>`, the reason being
`No reason provided` when it is empty or absent; otherwise it schedules nothing, keeps
`retryCount`, clears `isListening` and `wakeWordActive`, and sets `connectionError` to the
terminal diagnostic. -/
theorem close_step_contract (event : CloseEvent) (s : Session) (hm : s.mountedRef = true) :
    MAX_RETRIES = 5 ∧ RETRY_DELAY = 3000 ∧
      onclose event s
        = if s.retryCountRef < 5 then
            { s with
              isConnected := false
              connectionError := .str ("Disconnected: " ++ toString event.code ++ " " ++
                (match event.reason with
                  | some r => if r = "" then "No reason provided" else r
                  | none => "No reason provided"))
              retryCountRef := s.retryCountRef + 1
              timerSeq := s.timerSeq + 1
              reconnectTimeoutRef := some (s.timerSeq + 1)
              effects := s.effects ++ [.setTimeout (s.timerSeq + 1) 3000] }
          else
            { s with
              isConnected := false
              connectionError := .str
                "Max reconnection attempts reached. Please refresh the page."
              isListening := false
              wakeWordActive := false } := by
  refine ⟨rfl, rfl, ?_⟩
  have hr : reasonText event.reason
      = (match event.reason with
          | some r => if r = "" then "No reason provided" else r
          | none => "No reason provided") := by
    unfold reasonText
    cases event.reason with
    | none => rfl
    | some r => by_cases h : r = "" <;> simp [h]
  by_cases h : s.retryCountRef < 5
  · simp [onclose, hm, h, MAX_RETRIES, RETRY_DELAY, scheduleRetry, hr]
  · simp [onclose, hm, h, MAX_RETRIES]

/-- Witness of `close_step_contract`: an abnormal closure on the fresh session takes the
retry branch; the same closure with the retry count at 5 takes the terminal branch. -/
theorem close_step_contract_witness :
    mountedSession.mountedRef = true ∧
      onclose abnormalClose mountedSession
        = { mountedSession with
            isConnected := false
            connectionError := .str "Disconnected: 1006 No reason provided"
            retryCountRef := 1
            timerSeq := 1
            reconnectTimeoutRef := some 1
            effects := [.newWebSocket 1, .setTimeout 1 3000] } ∧
      onclose abnormalClose { mountedSession with retryCountRef := 5, isListening := true }
        = { mountedSession with
            retryCountRef := 5
            connectionError := .str
              "Max reconnection attempts reached. Please refresh the page." } := by
  refine ⟨rfl, ?_, ?_⟩
  · rw [(close_step_contract abnormalClose mountedSession rfl).2.2]
    rfl
  · rw [(close_step_contract abnormalClose
      { mountedSession with retryCountRef := 5, isListening := true } rfl).2.2]
    rfl

/-- On a mounted session with retries left, the close handler keeps the session mounted,
adds one to the retry count and schedules exactly one retry. -/
theorem onclose_retry (event : CloseEvent) (s : Session) (hm : s.mountedRef = true)
    (hr : s.retryCountRef < MAX_RETRIES) :
    (onclose event s).mountedRef = true ∧
      (onclose event s).retryCountRef = s.retryCountRef + 1 ∧
      retryScheduled s (onclose event s) = true ∧
      (onclose event s).connectionError
        = .str ("Disconnected: " ++ toString event.code ++ " " ++ reasonText event.reason) := by
  simp [onclose, hm, hr, scheduleRetry, retryScheduled]

/-- A successful `connect()` on a mounted session keeps it mounted and resets the retry
count to 0: it runs `cleanup()` first. -/
theorem connect_resets (s : Session) (hm : s.mountedRef = true) :
    (connect false s).mountedRef = true ∧ (connect false s).retryCountRef = 0 := by
  have hc : (cleanup s).mountedRef = s.mountedRef := by
    unfold cleanup
    simp only
    repeat (first | rfl | split)
  simp only [connect, hm, Bool.not_true, Bool.false_eq_true, if_false]
  refine ⟨hc.trans hm, ?_⟩
  simp [cleanup]

theorem closeThenRetry_resets (event : CloseEvent) (s : Session) (hm : s.mountedRef = true)
    (hr : s.retryCountRef < MAX_RETRIES) :
    (closeThenRetry event s).mountedRef = true ∧ (closeThenRetry event s).retryCountRef = 0 := by
  obtain ⟨h1, _, h3, _⟩ := onclose_retry event s hm hr
  unfold closeThenRetry
  rw [if_pos h3]
  exact connect_resets _ h1

/-- However many rounds of close and retry have gone by, the session is mounted with a retry
count below the bound, so the next close schedules a retry again. -/
theorem closeRounds_resets (events : List CloseEvent) :
    ∀ s : Session, s.mountedRef = true → s.retryCountRef < MAX_RETRIES →
      (closeRounds events s).mountedRef = true ∧
        (closeRounds events s).retryCountRef < MAX_RETRIES := by
  induction events with
  | nil => exact fun s hm hr => ⟨hm, hr⟩
  | cons event events ih =>
    intro s hm hr
    obtain ⟨h1, h2⟩ := closeThenRetry_resets event s hm hr
    exact ih (closeThenRetry event s) h1 (by rw [h2]; decide)

theorem closes_count (events : List CloseEvent) :
    ∀ s : Session, s.mountedRef = true → s.retryCountRef + events.length ≤ MAX_RETRIES →
      (closes events s).mountedRef = true ∧
        (closes events s).retryCountRef = s.retryCountRef + events.length := by
  induction events with
  | nil => exact fun s hm _ => ⟨hm, rfl⟩
  | cons event events ih =>
    intro s hm hr
    simp only [List.length_cons] at hr
    obtain ⟨h1, h2, _, _⟩ := onclose_retry event s hm (by omega)
    obtain ⟨h3, h4⟩ := ih (onclose event s) h1 (by omega)
    refine ⟨h3, ?_⟩
    show (closes events (onclose event s)).retryCountRef = _
    rw [h4, h2, List.length_cons]
    omega

/-- C8 (reset on success): on a mounted session, whatever the retry count, the open handler
sets `retryCount` to 0, `isConnected` to true, `connectionError` to null and
`wakeWordActive` to true, and keeps the transcript, `isListening` and everything else; a
close that follows takes the retry branch, scheduling one retry with `retryCount` 1; and
each of the first five closes after the open schedules a retry. -/
theorem reset_on_success (ws : Nat) (s : Session) (hm : s.mountedRef = true) :
    onopen ws s
        = { s with
            isConnected := true
            retryCountRef := 0
            connectionError := .null
            wakeWordActive := true } ∧
      (∀ event : CloseEvent,
        retryScheduled (onopen ws s) (onclose event (onopen ws s)) = true ∧
          (onclose event (onopen ws s)).retryCountRef = 1) ∧
      (∀ (events : List CloseEvent) (event : CloseEvent), events.length < 5 →
        retryScheduled (closes events (onopen ws s))
            (onclose event (closes events (onopen ws s))) = true ∧
          (onclose event (closes events (onopen ws s))).retryCountRef = events.length + 1) := by
  have ho : onopen ws s
      = { s with
          isConnected := true
          retryCountRef := 0
          connectionError := .null
          wakeWordActive := true } := by
    simp [onopen, hm]
  have hom : (onopen ws s).mountedRef = true := by rw [ho]; exact hm
  have hoc : (onopen ws s).retryCountRef = 0 := by rw [ho]
  have hmany : ∀ (events : List CloseEvent) (event : CloseEvent), events.length < 5 →
      retryScheduled (closes events (onopen ws s))
          (onclose event (closes events (onopen ws s))) = true ∧
        (onclose event (closes events (onopen ws s))).retryCountRef = events.length + 1 := by
    intro events event hlen
    obtain ⟨h1, h2⟩ := closes_count events (onopen ws s) hom
      (by rw [hoc]; simp only [MAX_RETRIES]; omega)
    rw [hoc, Nat.zero_add] at h2
    obtain ⟨_, h4, h5, _⟩ := onclose_retry event (closes events (onopen ws s)) h1
      (by rw [h2]; exact hlen)
    exact ⟨h5, by rw [h4, h2]⟩
  exact ⟨ho, fun event => hmany [] event (by decide), hmany⟩

/-- Witness of `reset_on_success`: an open with the retry count at 3, then closes. -/
theorem reset_on_success_witness :
    (onopen 1 { mountedSession with retryCountRef := 3 }).retryCountRef = 0 ∧
      (onclose abnormalClose (onopen 1 { mountedSession with retryCountRef := 3 })).retryCountRef
        = 1 ∧
      (onclose abnormalClose (closes (List.replicate 4 abnormalClose)
          (onopen 1 { mountedSession with retryCountRef := 3 }))).retryCountRef = 5 := by
  have h := reset_on_success 1 { mountedSession with retryCountRef := 3 } rfl
  refine ⟨?_, (h.2.1 abnormalClose).2, ?_⟩
  · rw [h.1]
  · exact (h.2.2 (List.replicate 4 abnormalClose) abnormalClose (by decide)).2

/-- C1 (retry bound over a whole session), evaluated on the code: from the freshly mounted
session, after five rounds of close and retry the retry count is 0 again, because
`connect()` runs `cleanup()`, which resets it; the sixth close therefore schedules one more
retry, with retry count 1 and the ordinary `Disconnected` diagnostic, not the terminal one. -/
theorem sixth_close_schedules_retry :
    (closeRounds (List.replicate 5 abnormalClose) mountedSession).mountedRef = true ∧
      (closeRounds (List.replicate 5 abnormalClose) mountedSession).retryCountRef = 0 ∧
      retryScheduled (closeRounds (List.replicate 5 abnormalClose) mountedSession)
        (onclose abnormalClose (closeRounds (List.replicate 5 abnormalClose) mountedSession))
        = true ∧
      (onclose abnormalClose
          (closeRounds (List.replicate 5 abnormalClose) mountedSession)).retryCountRef = 1 ∧
      (onclose abnormalClose
          (closeRounds (List.replicate 5 abnormalClose) mountedSession)).connectionError
        = .str "Disconnected: 1006 No reason provided" := by
  refine ⟨rfl, rfl, rfl, rfl, ?_⟩
  rw [(onclose_retry abnormalClose _ rfl (by decide)).2.2.2]
  rfl

end Arlo
